import Mathlib

/-!
Shallow embedding of the weather-sensor metrics service
(ingest service, parameter resolver, query engine) from
src/query/app.py, src/ingest/app.py and src/shared/schemas.py.

Conventions of the embedding:
* Timestamps are natural numbers counting seconds on a fixed timeline
  (zero chosen at 0000-03-01 of the proleptic Gregorian calendar, so that
  the day-number arithmetic below stays in Nat); only order and
  day-granularity arithmetic of timestamps matter to the code.
* Stored float measurements are modelled as rationals on the query side
  (the query engine never produces non-finite values from finite rows);
  the ingest-side validation models the full pydantic float domain,
  including the non-finite values NaN and the signed infinities, because pydantic's
  default `allow_inf_nan=True` lets them through.
* Python dicts are modelled as insertion-ordered association lists with
  unique keys (`setA` updates in place or appends, as dict assignment does).
* HTTP failure responses are modelled by `HTTPError` values carrying the
  status code and detail string used at the corresponding `raise` site.
-/

/-- Equality of Except values is decidable when it is on both sides;
needed so concrete runs of the embedded endpoints can be settled by
decide. -/
def exceptDecEq {ε α : Type} [DecidableEq ε] [DecidableEq α] :
    (x y : Except ε α) → Decidable (x = y)
  | .ok a, .ok b => if h : a = b then .isTrue (by rw [h]) else .isFalse (by simp [h])
  | .ok _, .error _ => .isFalse (by simp)
  | .error _, .ok _ => .isFalse (by simp)
  | .error e, .error f => if h : e = f then .isTrue (by rw [h]) else .isFalse (by simp [h])

instance {ε α : Type} [DecidableEq ε] [DecidableEq α] : DecidableEq (Except ε α) :=
  exceptDecEq

/-- HTTP error response: status code plus detail string. -/
structure HTTPError where
  code : Nat
  detail : String
deriving DecidableEq

/-- Error raised by parse_sensors (src/query/app.py line 47). -/
def invalidSensorIdsError : HTTPError := ⟨400, "Invalid sensor IDs format"⟩

/-- Error raised by parse_date_range on a strptime failure (line 61). -/
def dateFormatError : HTTPError := ⟨400, "Invalid date format. Use YYYY-MM-DD"⟩

/-- Error raised by parse_date_range when start_dt > end_dt (line 67). -/
def startAfterEndError : HTTPError := ⟨400, "Start date must be before end date"⟩

/-- Error raised when the metric list resolves to empty (line 92). -/
def noMetricsError : HTTPError := ⟨400, "At least one metric must be specified"⟩

/-- Error raised in aggregate mode when statistic is falsy (line 121). -/
def statisticRequiredError : HTTPError := ⟨400, "statistic is required for date range queries"⟩

/-- An uncaught KeyError from STAT_FUNC_MAP[...] surfaces as a 500.
Unreachable behind schema validation, kept for faithfulness. -/
def statKeyError : HTTPError := ⟨500, "KeyError"⟩

/-- FastAPI schema validation failure (pydantic), HTTP 422. -/
def validationError422 : HTTPError := ⟨422, "request validation failed"⟩

/-- Seconds in a timestamp; timestamps count seconds on the timeline. -/
abbrev Timestamp := Nat

/-- One row of the metrics table (src/shared/models.py, class Metric).
The storage-assigned id column plays no role in any query and is omitted;
value is modelled as a rational (finite float). -/
structure Row where
  sensor_id : Int
  metric_type : String
  value : ℚ
  timestamp : Timestamp
deriving DecidableEq

/-- The metrics table, in insertion order. -/
abbrev DB := List Row

/-- Python truthiness of an Optional[str]: None and the empty string are
falsy, every other string is truthy. -/
def truthyOpt : Option String → Bool
  | none => false
  | some s => !s.isEmpty

/-! ### Small parsing helpers (Python int() / float() / strptime) -/

/-- Decimal digit test and value. -/
def digitVal? (c : Char) : Option Nat :=
  if c.isDigit then some (c.toNat - 48) else none

/-- All characters are decimal digits. -/
def allDigits (cs : List Char) : Bool :=
  cs.all (fun c => c.isDigit)

/-- Numeric value of a digit string (0 on the empty list). -/
def natOfDigits (cs : List Char) : Nat :=
  cs.foldl (fun acc c => 10 * acc + (c.toNat - 48)) 0

/-- Python int(s) on an already-stripped string: an optional sign followed
by a nonempty run of decimal digits.  (Python additionally allows
underscore separators between digits and some unicode digits; those
extensions play no role in the claims and are not modelled.) -/
def pyInt? (s : String) : Option Int :=
  match s.data with
  | '+' :: cs => if allDigits cs && !cs.isEmpty then some (natOfDigits cs : Int) else none
  | '-' :: cs => if allDigits cs && !cs.isEmpty then some (-(natOfDigits cs : Int)) else none
  | cs => if allDigits cs && !cs.isEmpty then some (natOfDigits cs : Int) else none

/-- Split a character list at every occurrence of sep. -/
def splitOnChar (sep : Char) : List Char → List (List Char)
  | [] => [[]]
  | c :: cs =>
    match splitOnChar sep cs with
    | h :: t => if c = sep then [] :: h :: t else (c :: h) :: t
    | [] => [[c]]

/-- Python str.split(sep) with a one-character separator: the empty
string yields the one-element list of the empty string, and consecutive
separators yield empty tokens. -/
def pySplit (sep : Char) (s : String) : List String :=
  (splitOnChar sep s.data).map String.mk

/-- Whitespace as str.strip() removes it (the ASCII whitespace characters;
the unicode extras play no role in the claims). -/
def isPySpace (c : Char) : Bool :=
  c = ' ' || c = '\t' || c = '\n' || c = '\r'

/-- Python str.strip(): drop whitespace from both ends. -/
def pyStrip (s : String) : String :=
  String.mk (((s.data.dropWhile isPySpace).reverse.dropWhile isPySpace).reverse)

/-- ASCII lower-casing of one character. -/
def lowerChar (c : Char) : Char :=
  if 'A' ≤ c && c ≤ 'Z' then Char.ofNat (c.toNat + 32) else c

/-- Python str.lower() on the ASCII range. -/
def lowerString (s : String) : String :=
  String.mk (s.data.map lowerChar)

/-- Decimal literal accepted by Python float(): digits with an optional
decimal point, at least one digit overall ("1.", ".5" are valid, "." is
not).  Exponent notation is accepted by Python but plays no role in any
claim and is not modelled. -/
def parseDecimal? (cs : List Char) : Option ℚ :=
  match splitOnChar '.' cs with
  | [as] =>
    if allDigits as && !as.isEmpty then some ((natOfDigits as : ℚ)) else none
  | [as, bs] =>
    if allDigits as && allDigits bs && (!as.isEmpty || !bs.isEmpty) then
      some ((natOfDigits as : ℚ) + (natOfDigits bs : ℚ) / ((10 : ℚ) ^ bs.length))
    else none
  | _ => none

/-- Pydantic float domain: finite rationals plus NaN and signed infinity.
Pydantic's default `allow_inf_nan=True` admits the non-finite values. -/
inductive PyFloat where
  | fin (q : ℚ)
  | nan
  | inf
  | ninf
deriving DecidableEq

/-- Python float(s): strip, lowercase, optional sign, then either one of
the words inf/infinity/nan or a decimal literal. -/
def pyFloatOfString? (s : String) : Option PyFloat :=
  let t := (lowerString (pyStrip s)).data
  let signed : Bool × List Char :=
    match t with
    | '+' :: cs => (false, cs)
    | '-' :: cs => (true, cs)
    | cs => (false, cs)
  let neg := signed.1
  let u := signed.2
  if u = "inf".data || u = "infinity".data then
    some (if neg then PyFloat.ninf else PyFloat.inf)
  else if u = "nan".data then some PyFloat.nan
  else
    match parseDecimal? u with
    | some q => some (PyFloat.fin (if neg then -q else q))
    | none => none

/-! ### Calendar arithmetic (datetime.strptime with format %Y-%m-%d) -/

/-- Gregorian leap-year rule. -/
def isLeapYear (y : Nat) : Bool :=
  (y % 4 = 0 && y % 100 ≠ 0) || y % 400 = 0

/-- Length of a month. -/
def daysInMonth (y m : Nat) : Nat :=
  if m = 2 then (if isLeapYear y then 29 else 28)
  else if m = 4 || m = 6 || m = 9 || m = 11 then 30 else 31

/-- Day number of a civil date on the timeline whose day zero is
0000-03-01, via the standard shifted-month (era/year-of-era) formula;
strictly monotone in the calendar order of valid dates with y ≥ 1. -/
def daysFromCivil (y m d : Nat) : Nat :=
  let yAdj := if m ≤ 2 then y - 1 else y
  let era := yAdj / 400
  let yoe := yAdj % 400
  let mp := if 3 ≤ m then m - 3 else m + 9
  let doy := (153 * mp + 2) / 5 + (d - 1)
  let doe := yoe * 365 + yoe / 4 - yoe / 100 + doy
  era * 146097 + doe

/-- datetime.strptime(s, "%Y-%m-%d"): four-digit year, one- or two-digit
month and day, month in 1..12, day valid for the month; returns the day
number on the timeline.  Python rejects any string not fully consumed by
the format, which the exact three-component split enforces. -/
def parseYMD (s : String) : Option Nat :=
  match (pySplit '-' s).map String.data with
  | [ys, ms, ds] =>
    if ys.length = 4 && allDigits ys
        && (ms.length = 1 || ms.length = 2) && allDigits ms
        && (ds.length = 1 || ds.length = 2) && allDigits ds then
      let y := natOfDigits ys
      let m := natOfDigits ms
      let d := natOfDigits ds
      if 1 ≤ m && m ≤ 12 && 1 ≤ d && d ≤ daysInMonth y m then
        some (daysFromCivil y m d)
      else none
    else none
  | _ => none

/-- Midnight (00:00:00) of a day number, in timeline seconds. -/
def daySec (d : Nat) : Nat := d * 86400

/-! ### Parameter Resolver (src/query/app.py) -/

/-- All-or-nothing traversal of a list of options. -/
def traverseOption : List (Option α) → Option (List α)
  | [] => some []
  | none :: _ => none
  | some a :: t =>
    match traverseOption t with
    | some as' => some (a :: as')
    | none => none

/-- parse_sensors (src/query/app.py lines 36-50): the literal "all" means
no filter; otherwise split on commas and parse every whitespace-stripped
token with int(), raising 400 on any failure. -/
def parse_sensors (sensors_param : String) : Except HTTPError (Option (List Int)) :=
  if sensors_param = "all" then .ok none
  else
    match traverseOption ((pySplit ',' sensors_param).map (fun s => pyInt? (pyStrip s))) with
    | some sensor_ids => .ok (some sensor_ids)
    | none => .error invalidSensorIdsError

/-- parse_date_range (src/query/app.py lines 53-72): strptime both date
strings (either failure is the same 400), add one day to the end, then
reject if start_dt > end_dt.  Returns (start_dt, end_dt) in timeline
seconds. -/
def parse_date_range (start_date end_date : String) : Except HTTPError (Nat × Nat) :=
  match parseYMD start_date, parseYMD end_date with
  | some sd, some ed =>
    let start_dt := daySec sd
    let end_dt := daySec (ed + 1)
    if end_dt < start_dt then .error startAfterEndError
    else .ok (start_dt, end_dt)
  | _, _ => .error dateFormatError

/-- Metric-type list resolution (line 89): split on commas, strip, drop
empty tokens. -/
def metricTypes (metrics : String) : List String :=
  ((pySplit ',' metrics).map pyStrip).filter (fun m => !m.isEmpty)

/-! ### Query parameter schema (src/shared/schemas.py, class QueryParams) -/

/-- The query-string parameters of GET /query.  `metrics` is required;
the others are optional with `sensors` defaulting to "all". -/
structure QueryParams where
  sensors : String
  metrics : String
  statistic : Option String
  start_date : Option String
  end_date : Option String
deriving DecidableEq

/-- The pattern constraint on statistic, regex ^(min|max|sum|avg)$. -/
def validate_statistic (s : String) : Bool :=
  s = "min" || s = "max" || s = "sum" || s = "avg"

/-- The custom statistic validator of QueryParams.  Pydantic validates
fields in declaration order and statistic is declared before start_date
and end_date, so info.data carries neither when this runs: both read as
None and the check can never fire. -/
def validate_statistic_for_date_range (v : Option String) : Bool :=
  let start_date : Option String := none
  let end_date : Option String := none
  !((truthyOpt start_date || truthyOpt end_date) && !(truthyOpt v))

/-- Schema validation of QueryParams: field validators run only when the
field is supplied (pydantic does not validate defaults), first the
pattern, then the custom validator. -/
def queryParamsValid (p : QueryParams) : Bool :=
  match p.statistic with
  | none => true
  | some s => validate_statistic s && validate_statistic_for_date_range (some s)

/-! ### Query Engine (src/query/app.py, query_metrics) -/

/-- Association-list read (Python dict lookup); dicts built by setA have
unique keys, so first match is the binding. -/
def getA : List (String × α) → String → Option α
  | [], _ => none
  | (k, v) :: t, k' => if k = k' then some v else getA t k'

/-- Association-list write with Python dict semantics: update in place
when the key exists, append otherwise (dict insertion order). -/
def setA : List (String × α) → String → α → List (String × α)
  | [], k, v => [(k, v)]
  | (k', v') :: t, k, v =>
    if k' = k then (k, v) :: t else (k', v') :: setA t k v

/-- First-occurrence deduplication, as SELECT DISTINCT over insertion
order is modelled. -/
def dedupInts (seen : List Int) : List Int → List Int
  | [] => []
  | x :: xs => if x ∈ seen then dedupInts seen xs else x :: dedupInts (x :: seen) xs

/-- Distinct sensor_ids present in storage, in first-appearance order. -/
def distinctSensors (db : DB) : List Int :=
  dedupInts [] (db.map (fun r => r.sensor_id))

/-- The sensor list used by the latest-mode loop (line 103): the explicit
id list when sensors differs from "all" (the source re-parses
params.sensors with the same expression parse_sensors used, so the list
equals the one parse_sensors produced), else every distinct sensor_id in
storage. -/
def resolveSensors (sensor_filter : Option (List Int)) (db : DB) : List Int :=
  match sensor_filter with
  | some ids => ids
  | none => distinctSensors db

/-- The latest row for one (sensor_id, metric_type) pair: filter then take
a row of maximal timestamp (ORDER BY timestamp DESC ... first()).  Tie
order among equal timestamps is unspecified in SQL; the model keeps the
first-inserted row, which no claim depends on. -/
def latestRecord (db : DB) (sid : Int) (mt : String) : Option Row :=
  (db.filter (fun r => r.sensor_id == sid && r.metric_type == mt)).foldl
    (fun acc r =>
      match acc with
      | none => some r
      | some b => if b.timestamp < r.timestamp then some r else some b)
    none

/-- The latest-mode result rows, in sensor-loop-then-metric-loop order
(lines 100-117); pairs with no matching row contribute nothing. -/
def latestRows (db : DB) (sensors : List Int) (mts : List String) : List Row :=
  (sensors.map (fun sid => mts.filterMap (fun mt => latestRecord db sid mt))).flatten

/-- str(sensor_id), the response key for a sensor. -/
def lkey (r : Row) : String := toString r.sensor_id

/-- State of the latest-mode response assembly loop: the response dict of
per-sensor metric dicts, and the per-sensor running timestamp dict. -/
abbrev LState := List (String × List (String × ℚ)) × List (String × Timestamp)

/-- One iteration of the latest-mode assembly loop (lines 168-176): seed
the sensor entry and its timestamp on first sight, write the metric
value, and raise the sensor timestamp when the row's is larger. -/
def latestStep (st : LState) (r : Row) : LState :=
  match getA st.1 (lkey r) with
  | none =>
    (setA st.1 (lkey r) (setA [] r.metric_type r.value),
     setA st.2 (lkey r) r.timestamp)
  | some entry =>
    (setA st.1 (lkey r) (setA entry r.metric_type r.value),
     match getA st.2 (lkey r) with
     | some t => if t < r.timestamp then setA st.2 (lkey r) r.timestamp else st.2
     | none => st.2)

/-- One per-sensor record of the response: the metric-name-to-value dict
plus the ingested_at timestamp, present only in latest mode. -/
structure SensorEntry where
  metrics : List (String × ℚ)
  ingested_at : Option Timestamp
deriving DecidableEq

/-- Latest-mode response assembly (lines 165-180): run the loop, then add
ingested_at from the timestamp dict to every sensor entry. -/
def latestAssemble (rows : List Row) : List (String × SensorEntry) :=
  let st := rows.foldl latestStep ([], [])
  st.1.map (fun kv => (kv.1, ⟨kv.2, getA st.2 kv.1⟩))

/-- Whether a row passes the sensor filter: no filter matches everything,
an id list matches by membership (Metric.sensor_id.in_). -/
def matchesFilter : Option (List Int) → Int → Bool
  | none, _ => true
  | some ids, sid => ids.contains sid

/-- The rows feeding the aggregate query (lines 129-144): metric_type in
the resolved list, timestamp in the half-open range [start_dt, end_dt),
and the sensor filter when present. -/
def aggRows (db : DB) (mts : List String) (sensor_filter : Option (List Int))
    (start_dt end_dt : Nat) : DB :=
  db.filter (fun r =>
    mts.contains r.metric_type
      && decide (start_dt ≤ r.timestamp) && decide (r.timestamp < end_dt)
      && matchesFilter sensor_filter r.sensor_id)

/-- First-occurrence deduplication of group keys. -/
def dedupKeys (seen : List (Int × String)) : List (Int × String) → List (Int × String)
  | [] => []
  | x :: xs => if x ∈ seen then dedupKeys seen xs else x :: dedupKeys (x :: seen) xs

/-- The values of one (sensor_id, metric_type) group. -/
def groupValues (rows : DB) (sid : Int) (mt : String) : List ℚ :=
  (rows.filter (fun r => r.sensor_id == sid && r.metric_type == mt)).map
    (fun r => r.value)

/-- GROUP BY (sensor_id, metric_type) with the chosen aggregate applied to
each group's values; groups exist only for keys with at least one row.
SQL leaves group order unspecified; the model uses first-appearance
order, which no claim depends on. -/
def aggResults (rows : DB) (f : List ℚ → ℚ) : List (Int × String × ℚ) :=
  (dedupKeys [] (rows.map (fun r => (r.sensor_id, r.metric_type)))).map
    (fun k => (k.1, k.2, f (groupValues rows k.1 k.2)))

/-- One iteration of the aggregate-mode assembly loop (line 182-183):
response.setdefault(str(sensor_id), {})[metric_type] = value. -/
def aggStep (resp : List (String × List (String × ℚ))) (x : Int × String × ℚ) :
    List (String × List (String × ℚ)) :=
  let key := toString x.1
  let entry := (getA resp key).getD []
  setA resp key (setA entry x.2.1 x.2.2)

/-- Aggregate-mode response assembly: no ingested_at field on any entry. -/
def aggAssemble (l : List (Int × String × ℚ)) : List (String × SensorEntry) :=
  (l.foldl aggStep []).map (fun kv => (kv.1, ⟨kv.2, none⟩))

/-- SQL MIN over a group (groups are never empty). -/
def listMin : List ℚ → ℚ
  | [] => 0
  | q :: qs => qs.foldl min q

/-- SQL MAX over a group. -/
def listMax : List ℚ → ℚ
  | [] => 0
  | q :: qs => qs.foldl max q

/-- SQL SUM over a group. -/
def listSum (l : List ℚ) : ℚ := l.foldl (fun a b => a + b) 0

/-- SQL AVG over a group. -/
def listAvg (l : List ℚ) : ℚ := listSum l / (l.length : ℚ)

/-- STAT_FUNC_MAP (lines 28-33): the four statistic names and their
aggregate functions; lookup of any other key is a KeyError. -/
def STAT_FUNC_MAP (s : String) : Option (List ℚ → ℚ) :=
  if s = "min" then some listMin
  else if s = "max" then some listMax
  else if s = "sum" then some listSum
  else if s = "avg" then some listAvg
  else none

/-- The body of a successful /query response. -/
structure QueryResponse where
  statistic : String
  results : List (String × SensorEntry)
deriving DecidableEq

/-- query_metrics (src/query/app.py lines 75-188): resolve sensors and
metrics, dispatch on `not (params.start_date and params.end_date)`
(Python truthiness), run the latest-mode per-pair loop or the grouped
aggregation, and assemble the response. -/
def query_metrics (p : QueryParams) (db : DB) : Except HTTPError QueryResponse :=
  match parse_sensors p.sensors with
  | .error e => .error e
  | .ok sensor_filter =>
    let metric_types := metricTypes p.metrics
    if metric_types.isEmpty then .error noMetricsError
    else
      let is_latest_query := !(truthyOpt p.start_date && truthyOpt p.end_date)
      if is_latest_query then
        .ok ⟨"latest",
          latestAssemble (latestRows db (resolveSensors sensor_filter db) metric_types)⟩
      else
        if !(truthyOpt p.statistic) then .error statisticRequiredError
        else
          match STAT_FUNC_MAP (p.statistic.getD "") with
          | none => .error statKeyError
          | some agg_func =>
            match parse_date_range (p.start_date.getD "") (p.end_date.getD "") with
            | .error e => .error e
            | .ok (start_dt, end_dt) =>
              .ok ⟨p.statistic.getD "",
                aggAssemble (aggResults
                  (aggRows db metric_types sensor_filter start_dt end_dt) agg_func)⟩

/-- The full GET /query endpoint: FastAPI validates QueryParams at the
schema level (422 on failure) before query_metrics runs. -/
def handle_query (p : QueryParams) (db : DB) : Except HTTPError QueryResponse :=
  if queryParamsValid p then query_metrics p db else .error validationError422

/-! ### Ingest Service (src/shared/schemas.py MetricCreate, src/ingest/app.py) -/

/-- A JSON value arriving in the `value` field of an ingest request: null,
a number (json.loads also admits the literals NaN, Infinity, -Infinity), or
a string (which pydantic lax mode coerces with float()). -/
inductive JValue where
  | null
  | num (x : PyFloat)
  | str (s : String)
deriving DecidableEq

/-- The raw POST /metrics payload as it reaches pydantic: each field
either absent or carrying a value.  sensor_id is modelled post-int-
coercion (non-integer JSON there fails the same 422 path); timestamp is
modelled post-datetime-parse. -/
structure RawMetricPayload where
  sensor_id : Option Int
  metric_type : Option String
  value : Option JValue
  timestamp : Option Timestamp
deriving DecidableEq

/-- The allowed metric_type enumeration (schemas.py line 16). -/
def allowedMetricTypes : List String := ["temperature", "humidity", "wind_speed"]

/-- Pydantic coercion of the value field to float: numbers pass through
(default allow_inf_nan admits NaN and infinities), strings go through
float(), null fails (the field is not Optional). -/
def coerceFloat : JValue → Option PyFloat
  | .num x => some x
  | .str s => pyFloatOfString? s
  | .null => none

/-- A validated MetricCreate record (schemas.py lines 7-24). -/
structure MetricCreate where
  sensor_id : Int
  metric_type : String
  value : PyFloat
  timestamp : Timestamp
deriving DecidableEq

/-- MetricCreate validation: sensor_id required and > 0 (Field gt=0),
metric_type required and in the enumeration, value required and float-
coercible, timestamp defaulting to now when absent (`return v or
datetime.now()`). -/
def metricCreateValidate (p : RawMetricPayload) (now : Timestamp) :
    Except HTTPError MetricCreate :=
  match p.sensor_id with
  | none => .error validationError422
  | some sid =>
    if sid ≤ 0 then .error validationError422
    else
      match p.metric_type with
      | none => .error validationError422
      | some mt =>
        if allowedMetricTypes.contains mt then
          match p.value with
          | none => .error validationError422
          | some v =>
            match coerceFloat v with
            | none => .error validationError422
            | some x => .ok ⟨sid, mt, x, p.timestamp.getD now⟩
        else .error validationError422

/-- A persisted metrics row as the ingest service writes it (value kept in
the full pydantic float domain). -/
structure StoredMetric where
  sensor_id : Int
  metric_type : String
  value : PyFloat
  timestamp : Timestamp
deriving DecidableEq

/-- The POST /metrics endpoint (src/ingest/app.py lines 22-45): schema
validation happens before the handler body; on success the row is
appended and the storage-assigned id returned.  Storage-level failures
(409/500) depend on backend state outside this model. -/
def ingest_endpoint (p : RawMetricPayload) (now : Timestamp)
    (db : List StoredMetric) : Except HTTPError (Nat × List StoredMetric) :=
  match metricCreateValidate p now with
  | .error e => .error e
  | .ok m => .ok (db.length + 1, db ++ [⟨m.sensor_id, m.metric_type, m.value, m.timestamp⟩])

/-! ### General lemmas about the embedding -/

/-- A truthy optional string is in particular present. -/
theorem truthyOpt_isSome {o : Option String} (h : truthyOpt o = true) : o.isSome = true := by
  cases o <;> simp_all [truthyOpt]

/-- The custom statistic validator of QueryParams can never fire: the date
fields it consults are declared after statistic, so it always sees None. -/
theorem validate_statistic_for_date_range_true (v : Option String) :
    validate_statistic_for_date_range v = true := rfl

/-- A successful response of the endpoint passed schema validation and is
the response query_metrics produced. -/
theorem handle_query_ok_inv {p : QueryParams} {db : DB} {r : QueryResponse}
    (h : handle_query p db = .ok r) :
    queryParamsValid p = true ∧ query_metrics p db = .ok r := by
  unfold handle_query at h
  by_cases hv : queryParamsValid p = true
  · exact ⟨hv, by simpa [hv] using h⟩
  · simp [hv] at h

/-- Latest-mode unfolding of query_metrics: when the date pair is not both
truthy, a resolvable request produces the latest-mode response. -/
theorem query_metrics_latest_eq (p : QueryParams) (db : DB) (sf : Option (List Int))
    (hs : parse_sensors p.sensors = .ok sf)
    (hm : (metricTypes p.metrics).isEmpty = false)
    (hl : (truthyOpt p.start_date && truthyOpt p.end_date) = false) :
    query_metrics p db = .ok ⟨"latest",
      latestAssemble (latestRows db (resolveSensors sf db) (metricTypes p.metrics))⟩ := by
  unfold query_metrics
  rw [hs]
  simp [hm, hl]

/-- Aggregate-mode missing-statistic unfolding: both dates truthy and a
falsy statistic raise the 400 before any storage access. -/
theorem query_metrics_missing_stat (p : QueryParams) (db : DB) (sf : Option (List Int))
    (hs : parse_sensors p.sensors = .ok sf)
    (hm : (metricTypes p.metrics).isEmpty = false)
    (hl : (truthyOpt p.start_date && truthyOpt p.end_date) = true)
    (hst : truthyOpt p.statistic = false) :
    query_metrics p db = .error statisticRequiredError := by
  unfold query_metrics
  rw [hs]
  simp [hm, hl, hst]

/-- Inversion of a successful aggregate-mode run of query_metrics. -/
theorem query_metrics_agg_ok_inv {p : QueryParams} {db : DB} {r : QueryResponse}
    (hl : (truthyOpt p.start_date && truthyOpt p.end_date) = true)
    (h : query_metrics p db = .ok r) :
    ∃ sf f a b, parse_sensors p.sensors = .ok sf
      ∧ (metricTypes p.metrics).isEmpty = false
      ∧ truthyOpt p.statistic = true
      ∧ STAT_FUNC_MAP (p.statistic.getD "") = some f
      ∧ parse_date_range (p.start_date.getD "") (p.end_date.getD "") = .ok (a, b)
      ∧ r = ⟨p.statistic.getD "",
          aggAssemble (aggResults (aggRows db (metricTypes p.metrics) sf a b) f)⟩ := by
  unfold query_metrics at h
  cases hs : parse_sensors p.sensors with
  | error e => rw [hs] at h; exact absurd h (by simp)
  | ok sf =>
    rw [hs] at h
    by_cases hm : (metricTypes p.metrics).isEmpty = true
    · simp [hm] at h
    · simp only [hm, Bool.false_eq_true, if_false, hl, Bool.not_true, eq_self_iff_true] at h
      rw [Bool.not_eq_true] at hm
      by_cases hst : truthyOpt p.statistic = true
      · simp only [hst, Bool.not_true, Bool.false_eq_true, if_false] at h
        cases hf : STAT_FUNC_MAP (p.statistic.getD "") with
        | none => rw [hf] at h; exact absurd h (by simp)
        | some f =>
          rw [hf] at h
          cases hd : parse_date_range (p.start_date.getD "") (p.end_date.getD "") with
          | error e => rw [hd] at h; exact absurd h (by simp)
          | ok ab =>
            obtain ⟨a, b⟩ := ab
            rw [hd] at h
            refine ⟨sf, f, a, b, rfl, hm, hst, rfl, rfl, ?_⟩
            cases h
            rfl
      · rw [Bool.not_eq_true] at hst
        simp [hst] at h

/-- Inversion of a successful latest-mode run of query_metrics. -/
theorem query_metrics_latest_ok_inv {p : QueryParams} {db : DB} {r : QueryResponse}
    (hl : (truthyOpt p.start_date && truthyOpt p.end_date) = false)
    (h : query_metrics p db = .ok r) :
    ∃ sf, parse_sensors p.sensors = .ok sf
      ∧ (metricTypes p.metrics).isEmpty = false
      ∧ r = ⟨"latest",
          latestAssemble (latestRows db (resolveSensors sf db) (metricTypes p.metrics))⟩ := by
  unfold query_metrics at h
  cases hs : parse_sensors p.sensors with
  | error e => rw [hs] at h; exact absurd h (by simp)
  | ok sf =>
    rw [hs] at h
    by_cases hm : (metricTypes p.metrics).isEmpty = true
    · simp [hm] at h
    · simp only [hm, Bool.false_eq_true, if_false, hl, Bool.not_false, if_true] at h
      rw [Bool.not_eq_true] at hm
      exact ⟨sf, rfl, hm, by cases h; rfl⟩

/-! ### Claim C1 — mode dispatch and reported statistic -/

/-- Claim C1 (amended): the engine runs Aggregate-Mode iff start_date and
end_date are both present with non-empty values (Python truthiness); in
every other case it runs Latest-Mode and the response reports
statistic = "latest", while a successful Aggregate-Mode response reports
the chosen statistic name. -/
theorem c1_mode_dispatch :
    (∀ (p : QueryParams) (db : DB) (sf : Option (List Int)),
      parse_sensors p.sensors = .ok sf →
      (metricTypes p.metrics).isEmpty = false →
      (truthyOpt p.start_date && truthyOpt p.end_date) = false →
      query_metrics p db = .ok ⟨"latest",
        latestAssemble (latestRows db (resolveSensors sf db) (metricTypes p.metrics))⟩)
  ∧ (∀ (p : QueryParams) (db : DB) (r : QueryResponse) (s : String),
      (truthyOpt p.start_date && truthyOpt p.end_date) = true →
      p.statistic = some s →
      handle_query p db = .ok r → r.statistic = s) := by
  constructor
  · exact fun p db sf hs hm hl => query_metrics_latest_eq p db sf hs hm hl
  · intro p db r s hl hstat h
    obtain ⟨-, hq⟩ := handle_query_ok_inv h
    obtain ⟨sf, f, a, b, -, -, -, -, -, hr⟩ := query_metrics_agg_ok_inv hl hq
    rw [hr, hstat]
    rfl

/-- Claim C1, counterexample to the claim as stated: a request in which
both date parameters are present (one as the empty string) runs
Latest-Mode and reports statistic = "latest", although the claim as
stated requires Aggregate-Mode whenever both are present. -/
theorem c1_counterexample :
    (QueryParams.mk "all" "temperature" none (some "") (some "2024-01-16")).start_date.isSome
  ∧ (QueryParams.mk "all" "temperature" none (some "") (some "2024-01-16")).end_date.isSome
  ∧ handle_query ⟨"all", "temperature", none, some "", some "2024-01-16"⟩ []
      = .ok ⟨"latest", []⟩ := by
  decide

/-- Claim C1, witness instantiating the amended theorem. -/
theorem c1_witness :
    parse_sensors "all" = .ok none
  ∧ (metricTypes "temperature").isEmpty = false
  ∧ query_metrics ⟨"all", "temperature", none, none, none⟩ [⟨2, "temperature", 3, 4⟩]
      = .ok ⟨"latest", latestAssemble (latestRows [⟨2, "temperature", 3, 4⟩]
          (resolveSensors none [⟨2, "temperature", 3, 4⟩]) (metricTypes "temperature"))⟩ :=
  ⟨by decide, by decide,
    c1_mode_dispatch.1 ⟨"all", "temperature", none, none, none⟩ [⟨2, "temperature", 3, 4⟩]
      none (by decide) (by decide) (by decide)⟩

/-! ### Claim C3 — start-after-end check is off by one day -/

/-- Claim C3: the claim (and the spec, and the error message in the code)
ask that a start_date parsing later than end_date be rejected; the code
compares after adding one day to the end, so a start exactly one day
after the end is accepted and yields the empty range
[start 00:00:00, start 00:00:00), while two days after is rejected.
Evaluates the code at the failing input. -/
theorem c3_start_after_end_accepted :
    parseYMD "2024-01-16" = some 739206
  ∧ parseYMD "2024-01-15" = some 739205
  ∧ parse_date_range "2024-01-16" "2024-01-15" = .ok (739206 * 86400, 739206 * 86400)
  ∧ parse_date_range "2024-01-17" "2024-01-15" = .error startAfterEndError := by
  refine ⟨by decide, by decide, by decide, by decide⟩

/-! ### Claim C5 — statistic required exactly when a date range is given -/

/-- Claim C5 (amended): when both date parameters are supplied with
non-empty values (Python truthiness) and statistic is omitted, a request
whose sensors and metrics resolve is rejected with the missing-statistic
failure, for every database state (so before any aggregation); and when
both date parameters are omitted, omitting statistic changes nothing: the
request behaves exactly as with a valid statistic supplied. -/
theorem c5_statistic_required :
    (∀ (p : QueryParams) (db : DB) (sf : Option (List Int)),
      parse_sensors p.sensors = .ok sf →
      (metricTypes p.metrics).isEmpty = false →
      (truthyOpt p.start_date && truthyOpt p.end_date) = true →
      p.statistic = none →
      handle_query p db = .error statisticRequiredError)
  ∧ (∀ (sensors metrics : String) (db : DB),
      handle_query ⟨sensors, metrics, none, none, none⟩ db
        = handle_query ⟨sensors, metrics, some "min", none, none⟩ db) := by
  constructor
  · intro p db sf hs hm hl hstat
    have hv : queryParamsValid p = true := by
      unfold queryParamsValid
      rw [hstat]
    unfold handle_query
    rw [hv, if_pos rfl]
    exact query_metrics_missing_stat p db sf hs hm hl (by rw [hstat]; rfl)
  · intro sensors metrics db
    have h1 : queryParamsValid ⟨sensors, metrics, none, none, none⟩ = true := rfl
    have h2 : queryParamsValid ⟨sensors, metrics, some "min", none, none⟩ = true := rfl
    unfold handle_query
    rw [h1, h2]
    unfold query_metrics
    rfl

/-- Claim C5, counterexample to the claim as stated: both date parameters
supplied (the end as the empty string) and statistic omitted, yet the
request is not rejected: it runs Latest-Mode and succeeds. -/
theorem c5_counterexample :
    (QueryParams.mk "1" "temperature" none (some "2024-01-15") (some "")).start_date.isSome
  ∧ (QueryParams.mk "1" "temperature" none (some "2024-01-15") (some "")).end_date.isSome
  ∧ (QueryParams.mk "1" "temperature" none (some "2024-01-15") (some "")).statistic = none
  ∧ handle_query ⟨"1", "temperature", none, some "2024-01-15", some ""⟩ []
      = .ok ⟨"latest", []⟩ := by
  decide

/-- Claim C5, witness instantiating the amended theorem. -/
theorem c5_witness :
    parse_sensors "1" = .ok (some [1])
  ∧ (metricTypes "temperature").isEmpty = false
  ∧ handle_query ⟨"1", "temperature", none, some "2024-01-15", some "2024-01-16"⟩ []
      = .error statisticRequiredError :=
  ⟨by decide, by decide,
    c5_statistic_required.1 ⟨"1", "temperature", none, some "2024-01-15", some "2024-01-16"⟩
      [] (some [1]) (by decide) (by decide) (by decide) rfl⟩

/-! ### Claim C6 — statistic outside the enumeration is a schema failure -/

/-- Claim C6: a supplied statistic outside the enumeration min, max, sum,
avg fails the pydantic pattern check, so the request is rejected with the
schema-level 422 for every database state and regardless of which mode
the request would have run in. -/
theorem c6_invalid_statistic (p : QueryParams) (db : DB) (s : String)
    (hs : p.statistic = some s) (hv : validate_statistic s = false) :
    handle_query p db = .error validationError422 := by
  unfold handle_query queryParamsValid
  rw [hs]
  simp [hv]

/-- Claim C6, witness: statistic=median is rejected both with a date range
and without one. -/
theorem c6_witness :
    validate_statistic "median" = false
  ∧ handle_query ⟨"1", "temperature", some "median", some "2024-01-15", some "2024-01-16"⟩ []
      = .error validationError422
  ∧ handle_query ⟨"1", "temperature", some "median", none, none⟩ []
      = .error validationError422 :=
  ⟨by decide,
    c6_invalid_statistic ⟨"1", "temperature", some "median", some "2024-01-15", some "2024-01-16"⟩
      [] "median" rfl (by decide),
    c6_invalid_statistic ⟨"1", "temperature", some "median", none, none⟩
      [] "median" rfl (by decide)⟩

/-! ### Claim C9 — ingest validation -/

/-- Claim C9 (amended): ingest validation rejects, with the schema-level
422 and without touching storage, any reading whose sensor_id is missing
or not positive, whose metric_type is missing or outside the
enumeration, or whose value is missing, null, or a non-numeric string;
a reading that passes (including one whose numeric value is non-finite)
is persisted as given. -/
theorem c9_ingest_validation :
    (∀ (p : RawMetricPayload) (now : Timestamp) (db : List StoredMetric),
      (p.sensor_id = none
        ∨ (∃ n, p.sensor_id = some n ∧ n ≤ 0)
        ∨ p.metric_type = none
        ∨ (∃ mt, p.metric_type = some mt ∧ allowedMetricTypes.contains mt = false)
        ∨ p.value = none
        ∨ p.value = some JValue.null
        ∨ (∃ s, p.value = some (JValue.str s) ∧ pyFloatOfString? s = none)) →
      ingest_endpoint p now db = .error validationError422)
  ∧ (∀ (sid : Int) (mt : String) (x : PyFloat) (ts now : Timestamp)
        (db : List StoredMetric),
      0 < sid → allowedMetricTypes.contains mt = true →
      ingest_endpoint ⟨some sid, some mt, some (JValue.num x), some ts⟩ now db
        = .ok (db.length + 1, db ++ [⟨sid, mt, x, ts⟩])) := by
  constructor
  · rintro ⟨sidv, mtv, vv, tsv⟩ now db
      (rfl | ⟨n, rfl, hn⟩ | rfl | ⟨mt, rfl, hmt⟩ | rfl | rfl | ⟨s, rfl, hs⟩)
    · rfl
    · simp [ingest_endpoint, metricCreateValidate, hn]
    · cases sidv with
      | none => rfl
      | some sid =>
        by_cases h : sid ≤ 0 <;> simp [ingest_endpoint, metricCreateValidate, h]
    · have hmt' : ¬ (mt ∈ allowedMetricTypes) := by simpa using hmt
      cases sidv with
      | none => rfl
      | some sid =>
        by_cases h : sid ≤ 0 <;>
          simp [ingest_endpoint, metricCreateValidate, h, hmt']
    · cases sidv with
      | none => rfl
      | some sid =>
        by_cases h : sid ≤ 0
        · simp [ingest_endpoint, metricCreateValidate, h]
        · cases mtv with
          | none => simp [ingest_endpoint, metricCreateValidate, h]
          | some mt =>
            by_cases hmt : allowedMetricTypes.contains mt <;>
              simp [ingest_endpoint, metricCreateValidate, h, hmt]
    · cases sidv with
      | none => rfl
      | some sid =>
        by_cases h : sid ≤ 0
        · simp [ingest_endpoint, metricCreateValidate, h]
        · cases mtv with
          | none => simp [ingest_endpoint, metricCreateValidate, h]
          | some mt =>
            by_cases hmt : allowedMetricTypes.contains mt <;>
              simp [ingest_endpoint, metricCreateValidate, coerceFloat, h, hmt]
    · cases sidv with
      | none => rfl
      | some sid =>
        by_cases h : sid ≤ 0
        · simp [ingest_endpoint, metricCreateValidate, h]
        · cases mtv with
          | none => simp [ingest_endpoint, metricCreateValidate, h]
          | some mt =>
            by_cases hmt : allowedMetricTypes.contains mt <;>
              simp [ingest_endpoint, metricCreateValidate, coerceFloat, h, hmt, hs]
  · intro sid mt x ts now db hsid hmt
    simp only [ingest_endpoint, metricCreateValidate, coerceFloat]
    rw [if_neg (by omega), if_pos hmt]
    rfl

/-- Claim C9, counterexample to the claim as stated: a reading whose value
is the non-finite number NaN passes validation (pydantic float fields
default to allow_inf_nan=True and json.loads admits the NaN literal) and
is persisted, although the claim requires rejection of every value that
is not a finite number. -/
theorem c9_counterexample :
    ingest_endpoint ⟨some 1, some "temperature", some (JValue.num PyFloat.nan), none⟩ 0 []
      = .ok (1, [⟨1, "temperature", PyFloat.nan, 0⟩]) := by
  decide

/-- Claim C9, witness instantiating the amended theorem. -/
theorem c9_witness :
    ingest_endpoint ⟨some 0, some "temperature", some (JValue.num (PyFloat.fin 1)), none⟩ 5 []
      = .error validationError422
  ∧ ingest_endpoint ⟨some 3, some "humidity", some (JValue.num (PyFloat.fin 2)), some 9⟩ 5 []
      = .ok (1, [⟨3, "humidity", PyFloat.fin 2, 9⟩]) :=
  ⟨c9_ingest_validation.1 ⟨some 0, some "temperature", some (JValue.num (PyFloat.fin 1)), none⟩
      5 [] (Or.inr (Or.inl ⟨0, rfl, le_refl 0⟩)),
   c9_ingest_validation.2 3 "humidity" (PyFloat.fin 2) 9 5 [] (by decide) (by decide)⟩

/-! ### Claim C10 — a single supplied date is ignored -/

/-- Claim C10: a request supplying exactly one of start_date and end_date,
with resolvable sensors and metrics and with statistic absent or valid,
is not rejected: it runs Latest-Mode, produces the latest-mode response,
and behaves exactly as the same request with both date parameters
removed (the lone date never influences the outcome). -/
theorem c10_single_date_latest (p : QueryParams) (db : DB) (sf : Option (List Int))
    (hs : parse_sensors p.sensors = .ok sf)
    (hm : (metricTypes p.metrics).isEmpty = false)
    (hone : p.start_date.isSome ≠ p.end_date.isSome)
    (hstat : p.statistic = none ∨ ∃ s, p.statistic = some s ∧ validate_statistic s = true) :
    handle_query p db = .ok ⟨"latest",
        latestAssemble (latestRows db (resolveSensors sf db) (metricTypes p.metrics))⟩
    ∧ handle_query p db
        = handle_query ⟨p.sensors, p.metrics, p.statistic, none, none⟩ db := by
  have hl : (truthyOpt p.start_date && truthyOpt p.end_date) = false := by
    cases hb : truthyOpt p.start_date with
    | false => simp [hb]
    | true =>
      cases hc : truthyOpt p.end_date with
      | false => simp [hb, hc]
      | true =>
        exact absurd (by rw [truthyOpt_isSome hb, truthyOpt_isSome hc]) hone
  have hv : queryParamsValid p = true := by
    unfold queryParamsValid
    rcases hstat with h | ⟨s, h, hvs⟩ <;> rw [h]
    simp [hvs, validate_statistic_for_date_range_true]
  have hv2 : queryParamsValid ⟨p.sensors, p.metrics, p.statistic, none, none⟩ = true := hv
  have h1 : handle_query p db = .ok ⟨"latest",
      latestAssemble (latestRows db (resolveSensors sf db) (metricTypes p.metrics))⟩ := by
    unfold handle_query
    rw [hv, if_pos rfl]
    exact query_metrics_latest_eq p db sf hs hm hl
  refine ⟨h1, ?_⟩
  rw [h1]
  unfold handle_query
  rw [hv2, if_pos rfl]
  exact (query_metrics_latest_eq ⟨p.sensors, p.metrics, p.statistic, none, none⟩
    db sf hs hm rfl).symm

/-- Claim C10, witness: a request with only start_date supplied succeeds
in Latest-Mode and equals the date-free request. -/
theorem c10_witness :
    handle_query ⟨"1", "temperature", none, some "2024-01-15", none⟩ [⟨1, "temperature", 5, 10⟩]
      = .ok ⟨"latest", latestAssemble (latestRows [⟨1, "temperature", 5, 10⟩]
          (resolveSensors (some [1]) [⟨1, "temperature", 5, 10⟩]) (metricTypes "temperature"))⟩
  ∧ handle_query ⟨"1", "temperature", none, some "2024-01-15", none⟩ [⟨1, "temperature", 5, 10⟩]
      = handle_query ⟨"1", "temperature", none, none, none⟩ [⟨1, "temperature", 5, 10⟩] :=
  c10_single_date_latest ⟨"1", "temperature", none, some "2024-01-15", none⟩
    [⟨1, "temperature", 5, 10⟩] (some [1]) (by decide) (by decide) (by decide) (Or.inl rfl)

/-! ### Claim C7 — sensor selector resolution -/

/-- traverseOption fails exactly when some element is none. -/
theorem traverseOption_eq_none {α : Type} :
    ∀ l : List (Option α), traverseOption l = none ↔ ∃ x ∈ l, x = none := by
  intro l
  induction l with
  | nil => simp [traverseOption]
  | cons h t ih =>
    cases h with
    | none =>
      simp only [traverseOption, true_iff]
      exact ⟨none, List.mem_cons_self _ _, rfl⟩
    | some a =>
      cases ht : traverseOption t with
      | none =>
        obtain ⟨x, hx, hxn⟩ := ih.mp ht
        simp only [traverseOption, ht, true_iff]
        exact ⟨x, List.mem_cons_of_mem _ hx, hxn⟩
      | some as' =>
        simp only [traverseOption, ht]
        constructor
        · intro hcontra
          exact absurd hcontra (by simp)
        · rintro ⟨x, hx, rfl⟩
          rcases List.mem_cons.mp hx with hx1 | hx2
          · exact absurd hx1 (by simp)
          · rw [ih.mpr ⟨none, hx2, rfl⟩] at ht
            exact absurd ht (by simp)

/-- traverseOption succeeds exactly on a list of values that are all
present, returning them in order. -/
theorem traverseOption_eq_some {α : Type} :
    ∀ (l : List (Option α)) (as : List α),
      traverseOption l = some as ↔ l = as.map some := by
  intro l
  induction l with
  | nil => intro as; cases as <;> simp [traverseOption]
  | cons h t ih =>
    intro as
    cases h with
    | none => cases as <;> simp [traverseOption]
    | some a =>
      cases ht : traverseOption t with
      | none =>
        cases as with
        | nil => simp [traverseOption, ht]
        | cons b bs =>
          simp only [traverseOption, ht, List.map_cons, List.cons.injEq]
          constructor
          · intro hcontra
            exact absurd hcontra (by simp)
          · rintro ⟨h1, h2⟩
            rw [(ih bs).mpr h2] at ht
            exact absurd ht (by simp)
      | some as' =>
        cases as with
        | nil => simp [traverseOption, ht]
        | cons b bs =>
          have hts : t = List.map some as' := (ih as').mp ht
          simp only [traverseOption, ht, List.map_cons, List.cons.injEq,
            Option.some.injEq]
          constructor
          · rintro ⟨rfl, rfl⟩
            exact ⟨rfl, hts⟩
          · rintro ⟨rfl, h2⟩
            have hbs := (ih bs).mpr h2
            rw [ht] at hbs
            exact ⟨rfl, Option.some.inj hbs⟩

/-- Claim C7: sensor-selector resolution maps the literal "all" to no
filter (and the no-filter predicate matches every sensor id); any other
string is split on commas and each whitespace-stripped token parsed with
int(), succeeding exactly when every token parses (yielding the parsed
ids in order) and failing with the invalid-format error exactly when some
token does not parse; the empty string splits into the single empty
token, which fails. -/
theorem c7_sensor_selector :
    parse_sensors "all" = .ok none
  ∧ (∀ sid : Int, matchesFilter none sid = true)
  ∧ (∀ s : String, s ≠ "all" →
      ((parse_sensors s = .error invalidSensorIdsError) ↔
        ∃ t ∈ pySplit ',' s, pyInt? (pyStrip t) = none))
  ∧ (∀ (s : String) (ids : List Int), s ≠ "all" →
      ((parse_sensors s = .ok (some ids)) ↔
        (pySplit ',' s).map (fun t => pyInt? (pyStrip t)) = ids.map some))
  ∧ pySplit ',' "" = [""]
  ∧ parse_sensors "" = .error invalidSensorIdsError := by
  refine ⟨rfl, fun sid => rfl, ?_, ?_, by decide, by decide⟩
  · intro s hs
    unfold parse_sensors
    rw [if_neg hs]
    cases ht : traverseOption ((pySplit ',' s).map (fun t => pyInt? (pyStrip t))) with
    | none =>
      obtain ⟨x, hx, hxn⟩ := (traverseOption_eq_none _).mp ht
      obtain ⟨t, htl, hteq⟩ := List.mem_map.mp hx
      simp only [true_iff]
      exact ⟨t, htl, by rw [hteq, hxn]⟩
    | some ids =>
      constructor
      · intro hcontra
        exact absurd hcontra (by simp)
      · rintro ⟨t, htl, htn⟩
        have hnone : (none : Option Int)
            ∈ (pySplit ',' s).map (fun t => pyInt? (pyStrip t)) := by
          rw [← htn]
          exact List.mem_map_of_mem _ htl
        rw [(traverseOption_eq_some _ _).mp ht] at hnone
        obtain ⟨a, -, ha⟩ := List.mem_map.mp hnone
        exact absurd ha (by simp)
  · intro s ids hs
    unfold parse_sensors
    rw [if_neg hs]
    cases ht : traverseOption ((pySplit ',' s).map (fun t => pyInt? (pyStrip t))) with
    | none =>
      constructor
      · intro hcontra
        exact absurd hcontra (by simp)
      · intro hmap
        rw [(traverseOption_eq_some _ _).mpr hmap] at ht
        exact absurd ht (by simp)
    | some ids' =>
      have hts := (traverseOption_eq_some _ _).mp ht
      constructor
      · intro hok
        have : ids' = ids := by
          have := (by simpa using hok : some ids' = some ids)
          exact Option.some.inj (by simpa using hok)
        rw [← this, ← hts]
      · intro hmap
        have hsame : some ids' = some ids := by
          rw [← ht, (traverseOption_eq_some _ _).mpr hmap]
        simp [Option.some.inj hsame]

/-- Claim C7, witness: a non-integer selector fails, a list selector
parses after trimming. -/
theorem c7_witness :
    ("abc" ≠ "all" ∧ parse_sensors "abc" = .error invalidSensorIdsError)
  ∧ ("1, 2" ≠ "all" ∧ parse_sensors "1, 2" = .ok (some [1, 2])) :=
  ⟨⟨by decide, (c7_sensor_selector.2.2.1 "abc" (by decide)).mpr
      ⟨"abc", by decide, by decide⟩⟩,
   ⟨by decide, (c7_sensor_selector.2.2.2.1 "1, 2" [1, 2] (by decide)).mpr (by decide)⟩⟩

/-! ### Claim C2 — half-open date range semantics -/

/-- Restricting the database to the half-open range first does not change
the rows feeding the aggregate query. -/
theorem aggRows_filter_inRange (db : DB) (mts : List String)
    (sf : Option (List Int)) (a b : Nat) :
    aggRows (db.filter (fun r => decide (a ≤ r.timestamp) && decide (r.timestamp < b)))
        mts sf a b
      = aggRows db mts sf a b := by
  unfold aggRows
  rw [List.filter_filter]
  apply List.filter_congr
  intro r _
  cases h1 : decide (a ≤ r.timestamp) <;> cases h2 : decide (r.timestamp < b) <;>
    simp [h1, h2]

/-- Claim C2: in Aggregate-Mode with parsed dates, the query result is a
function of exactly the rows whose timestamp lies in
[start 00:00:00, (end + 1 day) 00:00:00): the whole response is unchanged
when the database is restricted to that interval, membership in the
aggregated row set is characterised by the half-open bounds together with
the metric and sensor filters, a row timestamped exactly at start
midnight passes the filters, and a row timestamped exactly at end + 1 day
midnight never does. -/
theorem c2_half_open_range :
    (∀ (p : QueryParams) (db : DB) (sDay eDay : Nat),
      truthyOpt p.start_date = true → truthyOpt p.end_date = true →
      parseYMD (p.start_date.getD "") = some sDay →
      parseYMD (p.end_date.getD "") = some eDay →
      query_metrics p db = query_metrics p
        (db.filter (fun r => decide (daySec sDay ≤ r.timestamp)
          && decide (r.timestamp < daySec (eDay + 1)))))
  ∧ (∀ (db : DB) (mts : List String) (sf : Option (List Int))
        (sDay eDay : Nat) (r : Row),
      r ∈ aggRows db mts sf (daySec sDay) (daySec (eDay + 1)) ↔
        (r ∈ db ∧ mts.contains r.metric_type = true
          ∧ daySec sDay ≤ r.timestamp ∧ r.timestamp < daySec (eDay + 1)
          ∧ matchesFilter sf r.sensor_id = true))
  ∧ (∀ (db : DB) (mts : List String) (sf : Option (List Int))
        (sDay eDay : Nat) (r : Row),
      r ∈ db → mts.contains r.metric_type = true →
      matchesFilter sf r.sensor_id = true →
      r.timestamp = daySec sDay → sDay ≤ eDay →
      r ∈ aggRows db mts sf (daySec sDay) (daySec (eDay + 1)))
  ∧ (∀ (db : DB) (mts : List String) (sf : Option (List Int))
        (sDay eDay : Nat) (r : Row),
      r.timestamp = daySec (eDay + 1) →
      r ∉ aggRows db mts sf (daySec sDay) (daySec (eDay + 1))) := by
  refine ⟨?_, ?_, ?_, ?_⟩
  · intro p db sDay eDay hts hte hps hpe
    unfold query_metrics
    cases hs : parse_sensors p.sensors with
    | error e => rfl
    | ok sf =>
      have hpd : parse_date_range (p.start_date.getD "") (p.end_date.getD "")
          = if daySec (eDay + 1) < daySec sDay then .error startAfterEndError
            else .ok (daySec sDay, daySec (eDay + 1)) := by
        unfold parse_date_range
        rw [hps, hpe]
      by_cases hm : (metricTypes p.metrics).isEmpty = true
      · simp [hm]
      · cases hstv : truthyOpt p.statistic with
        | false => simp [hm, hts, hte, hstv]
        | true =>
          cases hfm : STAT_FUNC_MAP (p.statistic.getD "") with
          | none => simp [hm, hts, hte, hstv, hfm]
          | some f =>
            by_cases hlt : daySec (eDay + 1) < daySec sDay
            · simp [hm, hts, hte, hstv, hfm, hpd, hlt]
            · simp only [hm, hts, hte, hstv, hfm, hpd, hlt, Bool.and_self,
                Bool.not_true, Bool.false_eq_true, if_false, if_true,
                Bool.not_false]
              rw [aggRows_filter_inRange]
  · intro db mts sf sDay eDay r
    unfold aggRows
    simp only [List.mem_filter, Bool.and_eq_true, decide_eq_true_eq]
    tauto
  · intro db mts sf sDay eDay r hmem hmt hsf hts hle
    have hlt : daySec sDay < daySec (eDay + 1) := by
      unfold daySec
      omega
    unfold aggRows
    rw [List.mem_filter]
    refine ⟨hmem, ?_⟩
    simp only [Bool.and_eq_true, decide_eq_true_eq]
    exact ⟨⟨⟨hmt, by rw [hts]⟩, by rw [hts]; exact hlt⟩, hsf⟩
  · intro db mts sf sDay eDay r hts hmem
    have h2 := (List.mem_filter.mp hmem).2
    simp only [Bool.and_eq_true, decide_eq_true_eq] at h2
    have hlt2 : r.timestamp < daySec (eDay + 1) := by tauto
    exact absurd hlt2 (by rw [hts]; exact lt_irrefl _)

/-- Claim C2, witness: a concrete aggregate query is unchanged by
restricting the database to the half-open range, a row at start midnight
is aggregated, and a row at end-plus-one-day midnight is not. -/
theorem c2_witness :
    query_metrics ⟨"1", "temperature", some "avg", some "2024-01-15", some "2024-01-16"⟩
        [⟨1, "temperature", 20, daySec 739205⟩, ⟨1, "temperature", 100, daySec 739207⟩]
      = query_metrics ⟨"1", "temperature", some "avg", some "2024-01-15", some "2024-01-16"⟩
        ([⟨1, "temperature", 20, daySec 739205⟩, ⟨1, "temperature", 100, daySec 739207⟩].filter
          (fun r => decide (daySec 739205 ≤ r.timestamp)
            && decide (r.timestamp < daySec (739206 + 1))))
  ∧ (⟨1, "temperature", 20, daySec 739205⟩ : Row)
      ∈ aggRows [⟨1, "temperature", 20, daySec 739205⟩] ["temperature"] (some [1])
          (daySec 739205) (daySec (739206 + 1))
  ∧ (⟨1, "temperature", 100, daySec 739207⟩ : Row)
      ∉ aggRows [⟨1, "temperature", 100, daySec 739207⟩] ["temperature"] (some [1])
          (daySec 739205) (daySec (739206 + 1)) :=
  ⟨c2_half_open_range.1 ⟨"1", "temperature", some "avg", some "2024-01-15", some "2024-01-16"⟩
      [⟨1, "temperature", 20, daySec 739205⟩, ⟨1, "temperature", 100, daySec 739207⟩]
      739205 739206 (by decide) (by decide) (by decide) (by decide),
   c2_half_open_range.2.2.1 [⟨1, "temperature", 20, daySec 739205⟩] ["temperature"]
      (some [1]) 739205 739206 ⟨1, "temperature", 20, daySec 739205⟩
      (by decide) (by decide) (by decide) rfl (by decide),
   c2_half_open_range.2.2.2 [⟨1, "temperature", 100, daySec 739207⟩] ["temperature"]
      (some [1]) 739205 739206 ⟨1, "temperature", 100, daySec 739207⟩ (by decide)⟩

/-! ### Dict lemmas for the response assembly -/

/-- Reading back the key just written. -/
theorem getA_setA_self {α : Type} (l : List (String × α)) (k : String) (v : α) :
    getA (setA l k v) k = some v := by
  induction l with
  | nil => simp [setA, getA]
  | cons h t ih =>
    by_cases hk : h.1 = k
    · simp [setA, hk, getA]
    · obtain ⟨k', v'⟩ := h
      simp only at hk
      simp [setA, getA, hk, ih]

/-- Writing one key leaves every other key unchanged. -/
theorem getA_setA_ne {α : Type} (l : List (String × α)) (k k' : String) (v : α)
    (h : k ≠ k') : getA (setA l k v) k' = getA l k' := by
  induction l with
  | nil => simp [setA, getA, h]
  | cons hd t ih =>
    obtain ⟨k0, v0⟩ := hd
    by_cases hk : k0 = k
    · simp [setA, hk, getA, h]
    · simp [setA, getA, hk, ih]

/-- A key bound somewhere in the list is found. -/
theorem getA_isSome_of_mem {α : Type} {l : List (String × α)} {k : String} {v : α}
    (h : (k, v) ∈ l) : (getA l k).isSome = true := by
  induction l with
  | nil => cases h
  | cons hd t ih =>
    obtain ⟨k0, v0⟩ := hd
    rcases List.mem_cons.mp h with h1 | h2
    · cases h1
      simp [getA]
    · by_cases hk : k0 = k
      · simp [getA, hk]
      · simp only [getA, hk, if_false]
        exact ih h2

/-- The keys after a write are the old keys with k possibly appended. -/
theorem mem_keys_setA {α : Type} (l : List (String × α)) (k k' : String) (v : α) :
    k' ∈ (setA l k v).map Prod.fst ↔ (k' ∈ l.map Prod.fst ∨ k' = k) := by
  induction l with
  | nil => simp [setA]
  | cons hd t ih =>
    obtain ⟨k0, v0⟩ := hd
    by_cases hk : k0 = k
    · subst hk
      simp [setA]
      tauto
    · simp only [setA, hk, if_false, List.map_cons, List.mem_cons]
      rw [ih]
      tauto

/-- Key uniqueness of a dict. -/
def keysNodup {α : Type} (l : List (String × α)) : Prop :=
  (l.map Prod.fst).Nodup

/-- A write preserves key uniqueness. -/
theorem keysNodup_setA {α : Type} {l : List (String × α)} (k : String) (v : α)
    (h : keysNodup l) : keysNodup (setA l k v) := by
  induction l with
  | nil => simp [keysNodup, setA]
  | cons hd t ih =>
    obtain ⟨k0, v0⟩ := hd
    unfold keysNodup at h
    simp only [List.map_cons, List.nodup_cons] at h
    by_cases hk : k0 = k
    · subst hk
      unfold keysNodup
      simpa [setA] using h
    · have ht := ih h.2
      unfold keysNodup at ht ⊢
      simp only [setA, hk, if_false, List.map_cons, List.nodup_cons]
      refine ⟨?_, ht⟩
      rw [mem_keys_setA]
      rintro (hc | hc)
      · exact h.1 hc
      · exact hk hc

/-- On a dict with unique keys, membership determines the lookup. -/
theorem getA_eq_of_mem_nodup {α : Type} {l : List (String × α)} {k : String} {v : α}
    (hn : keysNodup l) (h : (k, v) ∈ l) : getA l k = some v := by
  induction l with
  | nil => cases h
  | cons hd t ih =>
    obtain ⟨k0, v0⟩ := hd
    unfold keysNodup at hn
    simp only [List.map_cons, List.nodup_cons] at hn
    rcases List.mem_cons.mp h with h1 | h2
    · cases h1
      simp [getA]
    · by_cases hk : k0 = k
      · subst hk
        exact absurd (List.mem_map_of_mem Prod.fst h2) hn.1
      · simp only [getA, hk, if_false]
        exact ih hn.2 h2

/-! ### Invariants of the latest-mode assembly loop -/

/-- The response dict and the timestamp dict always hold the same keys. -/
def goodState (st : LState) : Prop :=
  ∀ k, (getA st.1 k).isSome = (getA st.2 k).isSome

/-- One loop iteration preserves the key agreement. -/
theorem goodState_step {st : LState} (r : Row) (h : goodState st) :
    goodState (latestStep st r) := by
  intro k
  by_cases hk : lkey r = k
  · subst hk
    cases hresp : getA st.1 (lkey r) with
    | none => simp [latestStep, hresp, getA_setA_self]
    | some entry =>
      have hts := h (lkey r)
      rw [hresp] at hts
      cases hts0 : getA st.2 (lkey r) with
      | none => rw [hts0] at hts; simp at hts
      | some t0 =>
        by_cases hcmp : t0 < r.timestamp
        · simp [latestStep, hresp, hts0, hcmp, getA_setA_self]
        · simp [latestStep, hresp, hts0, hcmp, getA_setA_self]
  · cases hresp : getA st.1 (lkey r) with
    | none =>
      simp only [latestStep, hresp]
      rw [getA_setA_ne _ _ _ _ hk, getA_setA_ne _ _ _ _ hk]
      exact h k
    | some entry =>
      have hts := h (lkey r)
      rw [hresp] at hts
      cases hts0 : getA st.2 (lkey r) with
      | none => rw [hts0] at hts; simp at hts
      | some t0 =>
        by_cases hcmp : t0 < r.timestamp
        · simp only [latestStep, hresp, hts0, hcmp, if_pos]
          rw [getA_setA_ne _ _ _ _ hk, getA_setA_ne _ _ _ _ hk]
          exact h k
        · simp only [latestStep, hresp, hts0, hcmp, if_neg, if_false]
          rw [getA_setA_ne _ _ _ _ hk]
          exact h k

/-- The whole loop preserves the key agreement. -/
theorem goodState_fold (rows : List Row) {st : LState} (h : goodState st) :
    goodState (rows.foldl latestStep st) := by
  induction rows generalizing st with
  | nil => exact h
  | cons r rs ih => exact ih (goodState_step r h)

/-- A row's key is the only response key an iteration touches. -/
theorem latestStep_resp_ne {st : LState} {r : Row} {k : String} (h : lkey r ≠ k) :
    getA (latestStep st r).1 k = getA st.1 k := by
  cases hresp : getA st.1 (lkey r) with
  | none =>
    simp only [latestStep, hresp]
    rw [getA_setA_ne _ _ _ _ h]
  | some entry =>
    simp only [latestStep, hresp]
    rw [getA_setA_ne _ _ _ _ h]

/-- A row's key is the only timestamp key an iteration touches. -/
theorem latestStep_ts_ne {st : LState} {r : Row} {k : String} (h : lkey r ≠ k) :
    getA (latestStep st r).2 k = getA st.2 k := by
  cases hresp : getA st.1 (lkey r) with
  | none =>
    simp only [latestStep, hresp]
    rw [getA_setA_ne _ _ _ _ h]
  | some entry =>
    cases hts0 : getA st.2 (lkey r) with
    | none => simp only [latestStep, hresp, hts0]
    | some t0 =>
      by_cases hcmp : t0 < r.timestamp
      · simp only [latestStep, hresp, hts0, hcmp, if_pos]
        rw [getA_setA_ne _ _ _ _ h]
      · simp only [latestStep, hresp, hts0, hcmp, if_neg, if_false]

/-- After one iteration the row's sensor timestamp is defined, at least
the row's timestamp, and either the row's own timestamp or the value
that was already stored; any previously stored value never decreases. -/
theorem latestStep_ts_self {st : LState} (r : Row) (hg : goodState st) :
    ∃ t1, getA (latestStep st r).2 (lkey r) = some t1
      ∧ r.timestamp ≤ t1
      ∧ (t1 = r.timestamp ∨ getA st.2 (lkey r) = some t1)
      ∧ (∀ t0, getA st.2 (lkey r) = some t0 → t0 ≤ t1) := by
  cases hresp : getA st.1 (lkey r) with
  | none =>
    have hts := hg (lkey r)
    rw [hresp] at hts
    cases hts0 : getA st.2 (lkey r) with
    | some t0 => rw [hts0] at hts; simp at hts
    | none =>
      refine ⟨r.timestamp, ?_, le_refl _, Or.inl rfl, ?_⟩
      · simp [latestStep, hresp, getA_setA_self]
      · intro t0 h0
        exact absurd h0 (by simp)
  | some entry =>
    have hts := hg (lkey r)
    rw [hresp] at hts
    cases hts0 : getA st.2 (lkey r) with
    | none => rw [hts0] at hts; simp at hts
    | some t0 =>
      by_cases hcmp : t0 < r.timestamp
      · refine ⟨r.timestamp, ?_, le_refl _, Or.inl rfl, ?_⟩
        · simp [latestStep, hresp, hts0, hcmp, getA_setA_self]
        · intro t0' h0
          cases Option.some.inj h0
          exact le_of_lt hcmp
      · refine ⟨t0, ?_, le_of_not_lt hcmp, Or.inr rfl, ?_⟩
        · simp [latestStep, hresp, hts0, hcmp]
        · intro t0' h0
          cases Option.some.inj h0
          exact le_refl _

/-- A sensor timestamp, once present, survives the rest of the loop and
never decreases. -/
theorem latestFold_ts_mono :
    ∀ (rows : List Row) (st : LState), goodState st →
      ∀ k t0, getA st.2 k = some t0 →
        ∃ t, getA (rows.foldl latestStep st).2 k = some t ∧ t0 ≤ t := by
  intro rows
  induction rows with
  | nil => exact fun st _ k t0 h0 => ⟨t0, h0, le_refl _⟩
  | cons r rs ih =>
    intro st hg k t0 h0
    have hg' := goodState_step r hg
    by_cases hk : lkey r = k
    · subst hk
      obtain ⟨t1, ht1, -, -, hmax⟩ := latestStep_ts_self r hg
      obtain ⟨t, ht, hle⟩ := ih (latestStep st r) hg' (lkey r) t1 ht1
      exact ⟨t, ht, le_trans (hmax t0 h0) hle⟩
    · have heq := @latestStep_ts_ne st r k hk
      obtain ⟨t, ht, hle⟩ := ih (latestStep st r) hg' k t0 (by rw [heq]; exact h0)
      exact ⟨t, ht, hle⟩

/-- The final sensor timestamp is attained (either it was the initial
value or some row of the loop carries it), bounds every row of the loop
with that key, and bounds the initial value. -/
theorem latestFold_ts_spec :
    ∀ (rows : List Row) (st : LState), goodState st →
      ∀ k t, getA (rows.foldl latestStep st).2 k = some t →
        ((getA st.2 k = some t ∨ ∃ r ∈ rows, lkey r = k ∧ r.timestamp = t)
          ∧ (∀ r ∈ rows, lkey r = k → r.timestamp ≤ t)
          ∧ (∀ t0, getA st.2 k = some t0 → t0 ≤ t)) := by
  intro rows
  induction rows with
  | nil =>
    intro st _ k t h
    have h' : getA st.2 k = some t := h
    refine ⟨Or.inl h', by simp, ?_⟩
    intro t0 h0
    rw [h'] at h0
    cases Option.some.inj h0
    exact le_refl _
  | cons r rs ih =>
    intro st hg k t h
    have hg' := goodState_step r hg
    obtain ⟨hA, hB, hC⟩ := ih (latestStep st r) hg' k t h
    by_cases hk : lkey r = k
    · subst hk
      obtain ⟨t1, ht1, hrle, hattain, hmax⟩ := latestStep_ts_self r hg
      have ht1t : t1 ≤ t := hC t1 ht1
      refine ⟨?_, ?_, ?_⟩
      · rcases hA with hA1 | ⟨r', hr', hk', ht'⟩
        · rw [ht1] at hA1
          cases Option.some.inj hA1
          rcases hattain with h1 | h1
          · exact Or.inr ⟨r, List.mem_cons_self _ _, rfl, h1.symm⟩
          · exact Or.inl h1
        · exact Or.inr ⟨r', List.mem_cons_of_mem _ hr', hk', ht'⟩
      · intro r' hr' hk'
        rcases List.mem_cons.mp hr' with h1 | h1
        · subst h1
          exact le_trans hrle ht1t
        · exact hB r' h1 hk'
      · intro t0 h0
        exact le_trans (hmax t0 h0) ht1t
    · have heq := @latestStep_ts_ne st r k hk
      refine ⟨?_, ?_, ?_⟩
      · rcases hA with hA1 | ⟨r', hr', hk', ht'⟩
        · exact Or.inl (by rw [← heq]; exact hA1)
        · exact Or.inr ⟨r', List.mem_cons_of_mem _ hr', hk', ht'⟩
      · intro r' hr' hk'
        rcases List.mem_cons.mp hr' with h1 | h1
        · subst h1
          exact absurd hk' hk
        · exact hB r' h1 hk'
      · intro t0 h0
        exact hC t0 (by rw [heq]; exact h0)

/-- Every metric binding an iteration writes comes from the row (when it
touches the row's key) or was already present. -/
theorem latestStep_resp_spec {st : LState} {r : Row} {k : String}
    {entry : List (String × ℚ)} {m : String} {v : ℚ}
    (h1 : getA (latestStep st r).1 k = some entry) (h2 : getA entry m = some v) :
    (∃ e0, getA st.1 k = some e0 ∧ getA e0 m = some v)
      ∨ (lkey r = k ∧ r.metric_type = m ∧ r.value = v) := by
  by_cases hk : lkey r = k
  · subst hk
    cases hresp : getA st.1 (lkey r) with
    | none =>
      have hset : getA (latestStep st r).1 (lkey r)
          = some (setA [] r.metric_type r.value) := by
        simp [latestStep, hresp, getA_setA_self]
      rw [hset] at h1
      cases Option.some.inj h1
      by_cases hm : r.metric_type = m
      · subst hm
        rw [getA_setA_self] at h2
        exact Or.inr ⟨rfl, rfl, Option.some.inj h2⟩
      · rw [getA_setA_ne _ _ _ _ hm] at h2
        exact absurd h2 (by simp [getA])
    | some e0 =>
      have hset : getA (latestStep st r).1 (lkey r)
          = some (setA e0 r.metric_type r.value) := by
        simp [latestStep, hresp, getA_setA_self]
      rw [hset] at h1
      cases Option.some.inj h1
      by_cases hm : r.metric_type = m
      · subst hm
        rw [getA_setA_self] at h2
        exact Or.inr ⟨rfl, rfl, Option.some.inj h2⟩
      · rw [getA_setA_ne _ _ _ _ hm] at h2
        exact Or.inl ⟨e0, rfl, h2⟩
  · rw [latestStep_resp_ne hk] at h1
    exact Or.inl ⟨entry, h1, h2⟩

/-- Every metric binding the loop produces comes from some row of the
loop or from the initial state. -/
theorem latestFold_resp_spec :
    ∀ (rows : List Row) (st : LState) (k : String) (entry : List (String × ℚ))
      (m : String) (v : ℚ),
      getA (rows.foldl latestStep st).1 k = some entry → getA entry m = some v →
      ((∃ e0, getA st.1 k = some e0 ∧ getA e0 m = some v)
        ∨ ∃ r ∈ rows, lkey r = k ∧ r.metric_type = m ∧ r.value = v) := by
  intro rows
  induction rows with
  | nil =>
    intro st k entry m v h1 h2
    exact Or.inl ⟨entry, h1, h2⟩
  | cons r rs ih =>
    intro st k entry m v h1 h2
    rcases ih (latestStep st r) k entry m v h1 h2 with ⟨e0, he0, hv⟩ | ⟨r', hr', hp⟩
    · rcases latestStep_resp_spec he0 hv with hstep | hstep
      · exact Or.inl hstep
      · exact Or.inr ⟨r, List.mem_cons_self _ _, hstep⟩
    · exact Or.inr ⟨r', List.mem_cons_of_mem _ hr', hp⟩

/-- An iteration preserves key uniqueness of the response dict. -/
theorem latestStep_keysNodup {st : LState} (r : Row) (h : keysNodup st.1) :
    keysNodup (latestStep st r).1 := by
  cases hresp : getA st.1 (lkey r) with
  | none =>
    simp only [latestStep, hresp]
    exact keysNodup_setA _ _ h
  | some entry =>
    cases hts0 : getA st.2 (lkey r) with
    | none =>
      simp only [latestStep, hresp, hts0]
      exact keysNodup_setA _ _ h
    | some t0 =>
      by_cases hcmp : t0 < r.timestamp <;>
        simp only [latestStep, hresp, hts0, hcmp, if_pos, if_neg, if_false] <;>
        exact keysNodup_setA _ _ h

/-- The loop preserves key uniqueness of the response dict. -/
theorem latestFold_keysNodup :
    ∀ (rows : List Row) (st : LState), keysNodup st.1 →
      keysNodup (rows.foldl latestStep st).1 := by
  intro rows
  induction rows with
  | nil => exact fun st h => h
  | cons r rs ih => exact fun st h => ih _ (latestStep_keysNodup r h)

/-- The max-timestamp fold picks its result from the accumulator or the
list. -/
theorem foldl_pickMax_mem :
    ∀ (l : List Row) (acc : Option Row) (r : Row),
      l.foldl (fun acc r =>
        match acc with
        | none => some r
        | some b => if b.timestamp < r.timestamp then some r else some b) acc = some r →
      acc = some r ∨ r ∈ l := by
  intro l
  induction l with
  | nil => exact fun acc r h => Or.inl h
  | cons x xs ih =>
    intro acc r h
    rcases ih _ r h with h1 | h1
    · cases acc with
      | none =>
        simp only at h1
        cases Option.some.inj h1
        exact Or.inr (List.mem_cons_self _ _)
      | some b =>
        by_cases hcmp : b.timestamp < x.timestamp
        · simp only [hcmp, if_pos] at h1
          cases Option.some.inj h1
          exact Or.inr (List.mem_cons_self _ _)
        · simp only [hcmp, if_neg, if_false] at h1
          exact Or.inl h1
    · exact Or.inr (List.mem_cons_of_mem _ h1)

/-- A latest record comes from the database and matches the queried
sensor and metric type. -/
theorem latestRecord_some {db : DB} {sid : Int} {mt : String} {r : Row}
    (h : latestRecord db sid mt = some r) :
    r ∈ db ∧ r.sensor_id = sid ∧ r.metric_type = mt := by
  unfold latestRecord at h
  rcases foldl_pickMax_mem _ none r h with h1 | h1
  · exact absurd h1 (by simp)
  · have hm := List.mem_filter.mp h1
    have hp := hm.2
    simp only [Bool.and_eq_true, beq_iff_eq] at hp
    exact ⟨hm.1, hp.1, hp.2⟩

/-- Membership in the latest-mode result rows. -/
theorem mem_latestRows {db : DB} {sensors : List Int} {mts : List String} {r : Row} :
    r ∈ latestRows db sensors mts ↔
      ∃ sid ∈ sensors, ∃ mt ∈ mts, latestRecord db sid mt = some r := by
  unfold latestRows
  constructor
  · intro h
    obtain ⟨l, hl, hr⟩ := List.mem_flatten.mp h
    obtain ⟨sid, hsid, rfl⟩ := List.mem_map.mp hl
    obtain ⟨mt, hmt, hrec⟩ := List.mem_filterMap.mp hr
    exact ⟨sid, hsid, mt, hmt, hrec⟩
  · rintro ⟨sid, hsid, mt, hmt, hrec⟩
    refine List.mem_flatten.mpr ⟨mts.filterMap (fun mt => latestRecord db sid mt),
      List.mem_map_of_mem _ hsid, ?_⟩
    exact List.mem_filterMap.mpr ⟨mt, hmt, hrec⟩

/-! ### Invariants of the aggregate-mode assembly loop -/

/-- Every metric binding an aggregate-assembly iteration writes comes
from the processed triple or was already present. -/
theorem aggStep_resp_spec {resp : List (String × List (String × ℚ))}
    {x : Int × String × ℚ} {k : String} {entry : List (String × ℚ)}
    {m : String} {v : ℚ}
    (h1 : getA (aggStep resp x) k = some entry) (h2 : getA entry m = some v) :
    (∃ e0, getA resp k = some e0 ∧ getA e0 m = some v)
      ∨ (toString x.1 = k ∧ x.2.1 = m) := by
  by_cases hk : toString x.1 = k
  · subst hk
    have hset : getA (aggStep resp x) (toString x.1)
        = some (setA ((getA resp (toString x.1)).getD []) x.2.1 x.2.2) := by
      simp [aggStep, getA_setA_self]
    rw [hset] at h1
    cases Option.some.inj h1
    by_cases hm : x.2.1 = m
    · exact Or.inr ⟨rfl, hm⟩
    · rw [getA_setA_ne _ _ _ _ hm] at h2
      cases hresp : getA resp (toString x.1) with
      | none =>
        rw [hresp] at h2
        exact absurd h2 (by simp [getA])
      | some e0 =>
        rw [hresp] at h2
        exact Or.inl ⟨e0, rfl, h2⟩
  · have hne : getA (aggStep resp x) k = getA resp k := by
      simp only [aggStep]
      rw [getA_setA_ne _ _ _ _ hk]
    rw [hne] at h1
    exact Or.inl ⟨entry, h1, h2⟩

/-- Every metric binding the aggregate assembly produces comes from some
processed triple or from the initial dict. -/
theorem aggFold_resp_spec :
    ∀ (l : List (Int × String × ℚ)) (resp : List (String × List (String × ℚ)))
      (k : String) (entry : List (String × ℚ)) (m : String) (v : ℚ),
      getA (l.foldl aggStep resp) k = some entry → getA entry m = some v →
      ((∃ e0, getA resp k = some e0 ∧ getA e0 m = some v)
        ∨ ∃ x ∈ l, toString x.1 = k ∧ x.2.1 = m) := by
  intro l
  induction l with
  | nil => exact fun resp k entry m v h1 h2 => Or.inl ⟨entry, h1, h2⟩
  | cons x xs ih =>
    intro resp k entry m v h1 h2
    rcases ih (aggStep resp x) k entry m v h1 h2 with ⟨e0, he0, hv⟩ | ⟨x', hx', hp⟩
    · rcases aggStep_resp_spec he0 hv with hstep | hstep
      · exact Or.inl hstep
      · exact Or.inr ⟨x, List.mem_cons_self _ _, hstep⟩
    · exact Or.inr ⟨x', List.mem_cons_of_mem _ hx', hp⟩

/-- An aggregate-assembly iteration preserves key uniqueness. -/
theorem aggStep_keysNodup {resp : List (String × List (String × ℚ))}
    (x : Int × String × ℚ) (h : keysNodup resp) : keysNodup (aggStep resp x) :=
  keysNodup_setA _ _ h

/-- The aggregate assembly preserves key uniqueness. -/
theorem aggFold_keysNodup :
    ∀ (l : List (Int × String × ℚ)) (resp : List (String × List (String × ℚ))),
      keysNodup resp → keysNodup (l.foldl aggStep resp) := by
  intro l
  induction l with
  | nil => exact fun resp h => h
  | cons x xs ih => exact fun resp h => ih _ (aggStep_keysNodup x h)

/-- First-occurrence deduplication only keeps keys of the input. -/
theorem mem_of_mem_dedupKeys :
    ∀ (seen l : List (Int × String)) (x : Int × String),
      x ∈ dedupKeys seen l → x ∈ l := by
  intro seen l
  induction l generalizing seen with
  | nil => intro x h; cases h
  | cons y ys ih =>
    intro x h
    unfold dedupKeys at h
    by_cases hy : y ∈ seen
    · simp only [hy, if_pos] at h
      exact List.mem_cons_of_mem _ (ih _ x h)
    · simp only [hy, if_neg, if_false] at h
      rcases List.mem_cons.mp h with h1 | h1
      · exact h1 ▸ List.mem_cons_self _ _
      · exact List.mem_cons_of_mem _ (ih _ x h1)

/-- Every aggregate-result triple keys a group with at least one row in
the aggregated row set. -/
theorem aggResults_key_spec {rows : DB} {f : List ℚ → ℚ} {x : Int × String × ℚ}
    (h : x ∈ aggResults rows f) :
    ∃ r ∈ rows, r.sensor_id = x.1 ∧ r.metric_type = x.2.1 := by
  unfold aggResults at h
  obtain ⟨key, hkey, rfl⟩ := List.mem_map.mp h
  have hmem := mem_of_mem_dedupKeys [] _ key hkey
  obtain ⟨r, hr, hrk⟩ := List.mem_map.mp hmem
  refine ⟨r, hr, ?_, ?_⟩
  · rw [← hrk]
  · rw [← hrk]

/-! ### Claim C4 — ingested_at semantics -/

/-- Claim C4: every sensor entry of a Latest-Mode response carries an
ingested_at equal to the maximum timestamp among the latest rows returned
for that sensor across all of its returned metric types (some returned
row of that sensor attains it and no returned row of that sensor exceeds
it); and no sensor entry of an Aggregate-Mode response carries an
ingested_at. -/
theorem c4_ingested_at :
    (∀ (p : QueryParams) (db : DB) (sf : Option (List Int)) (r : QueryResponse)
        (k : String) (e : SensorEntry),
      (truthyOpt p.start_date && truthyOpt p.end_date) = false →
      parse_sensors p.sensors = .ok sf →
      handle_query p db = .ok r →
      (k, e) ∈ r.results →
      ∃ row, row ∈ latestRows db (resolveSensors sf db) (metricTypes p.metrics)
        ∧ lkey row = k
        ∧ e.ingested_at = some row.timestamp
        ∧ ∀ row', row' ∈ latestRows db (resolveSensors sf db) (metricTypes p.metrics)
            → lkey row' = k → row'.timestamp ≤ row.timestamp)
  ∧ (∀ (p : QueryParams) (db : DB) (r : QueryResponse) (k : String) (e : SensorEntry),
      (truthyOpt p.start_date && truthyOpt p.end_date) = true →
      handle_query p db = .ok r →
      (k, e) ∈ r.results →
      e.ingested_at = none) := by
  constructor
  · intro p db sf r k e hl hs h hmem
    obtain ⟨-, hq⟩ := handle_query_ok_inv h
    obtain ⟨sf', hs', hm', hr⟩ := query_metrics_latest_ok_inv hl hq
    rw [hs] at hs'
    cases Except.ok.inj hs'
    subst hr
    simp only at hmem
    unfold latestAssemble at hmem
    obtain ⟨kv, hkv, heq⟩ := List.mem_map.mp hmem
    obtain ⟨hk, he⟩ := Prod.mk.injEq .. ▸ heq
    subst hk
    set rows := latestRows db (resolveSensors sf db) (metricTypes p.metrics) with hrows
    set st := rows.foldl latestStep ([], []) with hst
    have hnodup : keysNodup st.1 :=
      latestFold_keysNodup rows ([], []) (by simp [keysNodup])
    have hgood : goodState st := goodState_fold rows (fun k => rfl)
    have hget : getA st.1 kv.1 = some kv.2 := getA_eq_of_mem_nodup hnodup hkv
    have hsome : (getA st.2 kv.1).isSome = true := by
      rw [← hgood kv.1, hget]
      rfl
    obtain ⟨t, ht⟩ := Option.isSome_iff_exists.mp hsome
    obtain ⟨hattain, hub, -⟩ :=
      latestFold_ts_spec rows ([], []) (fun k => rfl) kv.1 t ht
    rcases hattain with hinit | ⟨row, hrow, hrk, hrt⟩
    · exact absurd hinit (by simp [getA])
    · refine ⟨row, hrow, hrk, ?_, ?_⟩
      · rw [← he, ht, hrt]
      · intro row' hrow' hk'
        rw [hrt]
        exact hub row' hrow' hk'
  · intro p db r k e hl h hmem
    obtain ⟨-, hq⟩ := handle_query_ok_inv h
    obtain ⟨sf, f, a, b, -, -, -, -, -, hr⟩ := query_metrics_agg_ok_inv hl hq
    subst hr
    simp only at hmem
    unfold aggAssemble at hmem
    obtain ⟨kv, hkv, heq⟩ := List.mem_map.mp hmem
    obtain ⟨-, he⟩ := Prod.mk.injEq .. ▸ heq
    rw [← he]

/-- Claim C4, witness: a concrete Latest-Mode entry carries the maximum
timestamp, a concrete Aggregate-Mode entry carries none. -/
theorem c4_witness :
    (∃ row, row ∈ latestRows [⟨7, "temperature", 3, 100⟩]
          (resolveSensors none [⟨7, "temperature", 3, 100⟩]) (metricTypes "temperature")
        ∧ lkey row = "7"
        ∧ (SensorEntry.mk [("temperature", 3)] (some 100)).ingested_at = some row.timestamp
        ∧ ∀ row', row' ∈ latestRows [⟨7, "temperature", 3, 100⟩]
              (resolveSensors none [⟨7, "temperature", 3, 100⟩]) (metricTypes "temperature")
            → lkey row' = "7" → row'.timestamp ≤ row.timestamp)
  ∧ (SensorEntry.mk [("temperature", 20)] none).ingested_at = none :=
  ⟨c4_ingested_at.1 ⟨"all", "temperature", none, none, none⟩ [⟨7, "temperature", 3, 100⟩]
      none ⟨"latest", [("7", ⟨[("temperature", 3)], some 100⟩)]⟩ "7"
      ⟨[("temperature", 3)], some 100⟩ (by decide) (by decide) (by decide) (by decide),
   c4_ingested_at.2 ⟨"1", "temperature", some "max", some "2024-01-15", some "2024-01-16"⟩
      [⟨1, "temperature", 20, daySec 739205⟩] ⟨"max", [("1", ⟨[("temperature", 20)], none⟩)]⟩
      "1" ⟨[("temperature", 20)], none⟩ (by decide) (by decide) (by decide)⟩

/-! ### Claim C8 — empty results and absent combinations -/

/-- Aggregate-mode unfolding of query_metrics. -/
theorem query_metrics_agg_eq (p : QueryParams) (db : DB) (sf : Option (List Int))
    (f : List ℚ → ℚ) (a b : Nat)
    (hs : parse_sensors p.sensors = .ok sf)
    (hm : (metricTypes p.metrics).isEmpty = false)
    (hl : (truthyOpt p.start_date && truthyOpt p.end_date) = true)
    (hstat : truthyOpt p.statistic = true)
    (hf : STAT_FUNC_MAP (p.statistic.getD "") = some f)
    (hd : parse_date_range (p.start_date.getD "") (p.end_date.getD "") = .ok (a, b)) :
    query_metrics p db = .ok ⟨p.statistic.getD "",
      aggAssemble (aggResults (aggRows db (metricTypes p.metrics) sf a b) f)⟩ := by
  unfold query_metrics
  rw [hs]
  simp [hm, hl, hstat, hf, hd]

/-- When no (sensor, metric) pair has a latest record, the latest-mode
row collection is empty. -/
theorem latestRows_eq_nil {db : DB} {sensors : List Int} {mts : List String}
    (h : ∀ sid ∈ sensors, ∀ mt ∈ mts, latestRecord db sid mt = none) :
    latestRows db sensors mts = [] := by
  unfold latestRows
  rw [List.flatten_eq_nil_iff]
  intro l hl
  obtain ⟨sid, hsid, rfl⟩ := List.mem_map.mp hl
  rw [List.filterMap_eq_nil_iff]
  intro mt hmt
  exact h sid hsid mt hmt

/-- Aggregated rows come from the database. -/
theorem mem_db_of_mem_aggRows {db : DB} {mts : List String}
    {sf : Option (List Int)} {a b : Nat} {r : Row}
    (h : r ∈ aggRows db mts sf a b) : r ∈ db :=
  (List.mem_filter.mp h).1

/-- Claim C8: a valid request with zero matching rows succeeds with an
empty results map in either mode; in Latest-Mode a (sensor, metric)
combination with no row in storage is absent from the sensor's entry,
and in Aggregate-Mode a combination with no row matching the query (its
metric list, half-open date range and sensor filter) is absent from the
sensor's entry even when the table holds out-of-range rows for it (there
is no binding at all, so in particular no null and no zero). -/
theorem c8_empty_results :
    (∀ (p : QueryParams) (db : DB) (sf : Option (List Int)),
      queryParamsValid p = true →
      parse_sensors p.sensors = .ok sf →
      (metricTypes p.metrics).isEmpty = false →
      (truthyOpt p.start_date && truthyOpt p.end_date) = false →
      (∀ sid ∈ resolveSensors sf db, ∀ mt ∈ metricTypes p.metrics,
        latestRecord db sid mt = none) →
      handle_query p db = .ok ⟨"latest", []⟩)
  ∧ (∀ (p : QueryParams) (db : DB) (sf : Option (List Int)) (f : List ℚ → ℚ) (a b : Nat),
      queryParamsValid p = true →
      parse_sensors p.sensors = .ok sf →
      (metricTypes p.metrics).isEmpty = false →
      (truthyOpt p.start_date && truthyOpt p.end_date) = true →
      truthyOpt p.statistic = true →
      STAT_FUNC_MAP (p.statistic.getD "") = some f →
      parse_date_range (p.start_date.getD "") (p.end_date.getD "") = .ok (a, b) →
      aggRows db (metricTypes p.metrics) sf a b = [] →
      handle_query p db = .ok ⟨p.statistic.getD "", []⟩)
  ∧ (∀ (p : QueryParams) (db : DB) (r : QueryResponse) (k m : String) (e : SensorEntry),
      (truthyOpt p.start_date && truthyOpt p.end_date) = false →
      handle_query p db = .ok r →
      (k, e) ∈ r.results →
      (∀ row ∈ db, ¬(lkey row = k ∧ row.metric_type = m)) →
      getA e.metrics m = none)
  ∧ (∀ (p : QueryParams) (db : DB) (sf : Option (List Int)) (a b : Nat)
        (r : QueryResponse) (k m : String) (e : SensorEntry),
      (truthyOpt p.start_date && truthyOpt p.end_date) = true →
      parse_sensors p.sensors = .ok sf →
      parse_date_range (p.start_date.getD "") (p.end_date.getD "") = .ok (a, b) →
      handle_query p db = .ok r →
      (k, e) ∈ r.results →
      (∀ row ∈ aggRows db (metricTypes p.metrics) sf a b,
        ¬(toString row.sensor_id = k ∧ row.metric_type = m)) →
      getA e.metrics m = none) := by
  refine ⟨?_, ?_, ?_, ?_⟩
  · intro p db sf hv hs hm hl hnone
    unfold handle_query
    rw [hv, if_pos rfl, query_metrics_latest_eq p db sf hs hm hl,
      latestRows_eq_nil hnone]
    rfl
  · intro p db sf f a b hv hs hm hl hstat hf hd hempty
    unfold handle_query
    rw [hv, if_pos rfl, query_metrics_agg_eq p db sf f a b hs hm hl hstat hf hd, hempty]
    rfl
  · intro p db r k m e hl h hmem hnorow
    obtain ⟨-, hq⟩ := handle_query_ok_inv h
    obtain ⟨sf, hs, hm', hr⟩ := query_metrics_latest_ok_inv hl hq
    subst hr
    simp only at hmem
    unfold latestAssemble at hmem
    obtain ⟨kv, hkv, heq⟩ := List.mem_map.mp hmem
    obtain ⟨hk, he⟩ := Prod.mk.injEq .. ▸ heq
    subst hk
    cases hga : getA e.metrics m with
    | none => rfl
    | some v =>
      set rows := latestRows db (resolveSensors sf db) (metricTypes p.metrics) with hrows
      have hnodup : keysNodup (rows.foldl latestStep ([], [])).1 :=
        latestFold_keysNodup rows ([], []) (by simp [keysNodup])
      have hget : getA (rows.foldl latestStep ([], [])).1 kv.1 = some kv.2 :=
        getA_eq_of_mem_nodup hnodup hkv
      have hmet : e.metrics = kv.2 := by rw [← he]
      rw [hmet] at hga
      rcases latestFold_resp_spec rows ([], []) kv.1 kv.2 m v hget hga with
        ⟨e0, he0, -⟩ | ⟨row, hrow, hrk, hrm, -⟩
      · exact absurd he0 (by simp [getA])
      · obtain ⟨sid, -, mt, -, hrec⟩ := mem_latestRows.mp hrow
        obtain ⟨hdb, -, -⟩ := latestRecord_some hrec
        exact absurd ⟨hrk, hrm⟩ (hnorow row hdb)
  · intro p db sf a b r k m e hl hs hd h hmem hnorow
    obtain ⟨-, hq⟩ := handle_query_ok_inv h
    obtain ⟨sf', f, a', b', hs', -, -, -, hd', hr⟩ := query_metrics_agg_ok_inv hl hq
    rw [hs] at hs'
    cases Except.ok.inj hs'
    rw [hd] at hd'
    have hab := Except.ok.inj hd'
    have ha : a = a' := congrArg Prod.fst hab
    have hb : b = b' := congrArg Prod.snd hab
    subst ha
    subst hb
    subst hr
    simp only at hmem
    unfold aggAssemble at hmem
    obtain ⟨kv, hkv, heq⟩ := List.mem_map.mp hmem
    obtain ⟨hk, he⟩ := Prod.mk.injEq .. ▸ heq
    subst hk
    cases hga : getA e.metrics m with
    | none => rfl
    | some v =>
      set l := aggResults (aggRows db (metricTypes p.metrics) sf a b) f with hldef
      have hnodup : keysNodup (l.foldl aggStep []) :=
        aggFold_keysNodup l [] (by simp [keysNodup])
      have hget : getA (l.foldl aggStep []) kv.1 = some kv.2 :=
        getA_eq_of_mem_nodup hnodup hkv
      have hmet : e.metrics = kv.2 := by rw [← he]
      rw [hmet] at hga
      rcases aggFold_resp_spec l [] kv.1 kv.2 m v hget hga with
        ⟨e0, he0, -⟩ | ⟨x, hx, hxk, hxm⟩
      · exact absurd he0 (by simp [getA])
      · obtain ⟨row, hrow, hrsid, hrmt⟩ := aggResults_key_spec hx
        refine absurd ⟨?_, ?_⟩ (hnorow row hrow)
        · rw [hrsid, hxk]
        · rw [hrmt, hxm]

/-- Claim C8, witness: a sensor with no rows yields the empty results map
in both modes (status 200); a metric type with no row at all is absent
from a Latest-Mode entry; and a metric type whose only rows fall outside
the requested range is absent from an Aggregate-Mode entry although
another combination matches (nonempty results). -/
theorem c8_witness :
    handle_query ⟨"5", "temperature", none, none, none⟩ [] = .ok ⟨"latest", []⟩
  ∧ handle_query ⟨"1", "temperature", some "avg", some "2099-12-31", some "2099-12-31"⟩ []
      = .ok ⟨"avg", []⟩
  ∧ getA (SensorEntry.mk [("temperature", 3)] (some 100)).metrics "humidity" = none
  ∧ getA (SensorEntry.mk [("temperature", 20)] none).metrics "humidity" = none :=
  ⟨c8_empty_results.1 ⟨"5", "temperature", none, none, none⟩ [] (some [5])
      (by decide) (by decide) (by decide) (by decide) (by decide),
   c8_empty_results.2.1 ⟨"1", "temperature", some "avg", some "2099-12-31", some "2099-12-31"⟩
      [] (some [1]) listAvg (daySec 766949) (daySec (766949 + 1))
      (by decide) (by decide) (by decide) (by decide) (by decide) rfl
      (by decide) (by decide),
   c8_empty_results.2.2.1 ⟨"all", "temperature", none, none, none⟩
      [⟨7, "temperature", 3, 100⟩] ⟨"latest", [("7", ⟨[("temperature", 3)], some 100⟩)]⟩
      "7" "humidity" ⟨[("temperature", 3)], some 100⟩
      (by decide) (by decide) (by decide) (by decide),
   c8_empty_results.2.2.2 ⟨"1", "temperature,humidity", some "max", some "2024-01-15", some "2024-01-16"⟩
      [⟨1, "temperature", 20, daySec 739205⟩, ⟨1, "humidity", 50, daySec 739204⟩]
      (some [1]) (daySec 739205) (daySec (739206 + 1))
      ⟨"max", [("1", ⟨[("temperature", 20)], none⟩)]⟩
      "1" "humidity" ⟨[("temperature", 20)], none⟩
      (by decide) (by decide) (by decide) (by decide) (by decide) (by decide)⟩
